import Mathlib

/-!
# Verification of the Messager publish-subscribe router (src/messager.py)

Shallow embedding of the `Messager` class: the subscription store
(`subscribers : Dict[Type, Dict[object, set[Callable]]]` and the global
identity set `subscriberSet`), the subscribe / subscribeReceiver /
unsubscribe / unsubscribeReceiver operations, the publish and
batch_publish dispatch paths, and the singleton construction protocol
(`__new__` / `__init__`).

Modelling choices:
* A Python runtime type tag is a `PyType := Nat`; type matching in the
  source is dictionary lookup keyed by `type(message)`, i.e. exact
  nominal equality, which the embedding renders as decidable equality
  on `PyType`.
* A token is an arbitrary comparable object with a distinguished
  default `None`; we model it as `Token := Option Nat` with `none`
  playing the role of Python `None`.
* A handler (a plain function passed to `subscribe`, or a receiver's
  bound `receive` method) is a `Handler` record carrying its identity,
  its parameter count, its optional parameter annotation, and whether
  it is a coroutine function.  Distinct records model objects that
  compare unequal in Python; default object equality is assumed.
* A receiver object is distinct from (never equal to) its bound
  `receive` method, exactly as in Python; the global identity set
  therefore holds values of the sum type `Ident`.
* The nested dictionaries-of-sets are modelled as a total function
  `PyType → Token → List Handler` whose buckets are duplicate-free
  lists maintained by insert-if-absent (`setAdd`), matching Python
  `set.add`; `dict.get(k, default)` is function application.
* Dispatch is modelled as the trace of handler invocations.  A handler
  invocation records its delivery mode: run inline (synchronous call),
  awaited on a fresh event loop (the async path of `publish`:
  `loop.run_until_complete` on a loop created and closed per handler
  call), or merely scheduled without being awaited (the
  `asyncio.create_task` path of `batch_publish`).  Handler exceptions are modelled by a
  semantics parameter `raises : Handler → Message → Option Nat`
  giving the exception (by identity) a handler raises on a message,
  `none` for normal return; the dispatch loop of `publish` stops at the
  first raising handler and propagates that exception.
-/

/-- Python runtime type tag (routing key). -/
abbrev PyType : Type := Nat

/-- Subscription token: an opaque comparable value; `none` models Python `None`,
the default token. -/
abbrev Token : Type := Option Nat

/-- A handler callable as seen by `inspect.signature`: its object identity,
its number of parameters, the (optional) annotation of its first parameter,
and whether `asyncio.iscoroutinefunction` holds of it. -/
structure Handler where
  id : Nat
  arity : Nat
  annot : Option PyType
  isAsync : Bool
deriving DecidableEq, Repr

/-- A receiver object (`IReceiver`): its identity, its optional `token`
attribute (`none` models a receiver without the attribute), and its bound
`receive` method. -/
structure Receiver where
  id : Nat
  tokenAttr : Option Token
  receive : Handler
deriving DecidableEq, Repr

/-- An element of the global identity set `subscriberSet`: either a plain
handler stored by `subscribe`, or a receiver object stored by
`subscribeReceiver`.  A receiver never equals a bound method, so the two
constructors are disjoint, as in Python. -/
inductive Ident where
  | fn (h : Handler)
  | recv (r : Receiver)
deriving DecidableEq, Repr

/-- A message value: its runtime type tag and its payload identity. -/
structure Message where
  type : PyType
  val : Nat
deriving DecidableEq, Repr

/-- The error taxonomy of subscription-time failures (the spec's
`SubscriptionError`; the source raises `ValueError` in each case). -/
inductive SubscriptionError where
  | duplicate
  | badArity
  | missingAnnot
deriving DecidableEq, Repr

/-- Python `set.add` on a duplicate-free list: append if absent. -/
def setAdd {α : Type} [DecidableEq α] (x : α) (l : List α) : List α :=
  if x ∈ l then l else l ++ [x]

/-- The state of the `Messager` instance: the routing table
`subscribers` (type → token → set of handlers, with absent keys reading
as the empty bucket) and the global identity set `subscriberSet`. -/
structure MessagerState where
  subscribers : PyType → Token → List Handler
  subscriberSet : List Ident

/-- The state set up by `__init__` on first construction. -/
def emptyState : MessagerState :=
  { subscribers := fun _ _ => [], subscriberSet := [] }

/-- Embedding of `Messager._get_parameter_type`: fails unless the callable has exactly
one parameter carrying an explicit annotation; returns that annotation. -/
def getParameterType (h : Handler) : Except SubscriptionError PyType :=
  if h.arity ≠ 1 then .error .badArity
  else
    match h.annot with
    | none => .error .missingAnnot
    | some t => .ok t

/-- Insert a handler into the bucket for `(T, t)` with set semantics,
creating the intermediate dictionaries if absent (in the function model,
absent keys already read as empty). -/
def bucketInsert (subs : PyType → Token → List Handler) (T : PyType)
    (t : Token) (h : Handler) : PyType → Token → List Handler :=
  fun T' t' => if T' = T ∧ t' = t then setAdd h (subs T t) else subs T' t'

/-- Embedding of `Messager.subscribe(subscriber, token)`: raise on a duplicate identity,
then introspect the parameter type (raising on a bad signature), then add
the handler to the global identity set and to the `(type, token)` bucket.
Returns the state after the call together with the raised error, if any. -/
def subscribe (s : MessagerState) (h : Handler) (t : Token) :
    MessagerState × Option SubscriptionError :=
  if Ident.fn h ∈ s.subscriberSet then (s, some .duplicate)
  else
    match getParameterType h with
    | .error e => (s, some e)
    | .ok T =>
        ({ subscribers := bucketInsert s.subscribers T t h,
           subscriberSet := setAdd (Ident.fn h) s.subscriberSet }, none)

/-- Embedding of `Messager.subscribeReceiver(receiver)`: raise if the receiver object
itself is a duplicate identity, introspect `receiver.receive`, read the
receiver's `token` attribute (`None` if absent), then add the receiver
object to the identity set and its bound `receive` method to the bucket. -/
def subscribeReceiver (s : MessagerState) (r : Receiver) :
    MessagerState × Option SubscriptionError :=
  if Ident.recv r ∈ s.subscriberSet then (s, some .duplicate)
  else
    match getParameterType r.receive with
    | .error e => (s, some e)
    | .ok T =>
        let t := r.tokenAttr.getD none
        ({ subscribers := bucketInsert s.subscribers T t r.receive,
           subscriberSet := setAdd (Ident.recv r) s.subscriberSet }, none)

/-- Embedding of `Messager.unsubscribe(subscriber)`: introspects the parameter type
first (so a bad signature raises), then discards the handler from every
token bucket under its declared type and from the identity set. -/
def unsubscribe (s : MessagerState) (h : Handler) :
    MessagerState × Option SubscriptionError :=
  match getParameterType h with
  | .error e => (s, some e)
  | .ok T =>
      ({ subscribers := fun T' t' =>
           if T' = T then (s.subscribers T' t').filter (· ≠ h)
           else s.subscribers T' t',
         subscriberSet := s.subscriberSet.filter (· ≠ Ident.fn h) }, none)

/-- Embedding of `Messager.unsubscribeReceiver(receiver)`: same as `unsubscribe` but the
bucket entry is the bound `receive` method while the identity-set entry is
the receiver object. -/
def unsubscribeReceiver (s : MessagerState) (r : Receiver) :
    MessagerState × Option SubscriptionError :=
  match getParameterType r.receive with
  | .error e => (s, some e)
  | .ok T =>
      ({ subscribers := fun T' t' =>
           if T' = T then (s.subscribers T' t').filter (· ≠ r.receive)
           else s.subscribers T' t',
         subscriberSet := s.subscriberSet.filter (· ≠ Ident.recv r) }, none)

/-- How a dispatched call was delivered. -/
inductive Delivery where
  | inlineRun      -- synchronous handler called inline
  | awaited        -- async handler driven to completion by `run_until_complete`
  | scheduledOnly  -- async handler submitted via `create_task`, not awaited
deriving DecidableEq, Repr

/-- One entry of a dispatch trace: a handler receiving a message. -/
structure CallEvent where
  handler : Handler
  message : Message
  delivery : Delivery
deriving DecidableEq, Repr

/-- The snapshot `self.subscribers.get(type, {}).get(token, set()).copy()`
taken under the lock before dispatch. -/
def snapshot (s : MessagerState) (T : PyType) (t : Token) : List Handler :=
  s.subscribers T t

/-- The result of the dispatch loop of `publish`: the calls made (in snapshot
order), the first exception propagated (if any), and the number of private
event loops created — each of which is also closed (`finally: loop.close()`). -/
structure PublishResult where
  events : List CallEvent
  exc : Option Nat
  loopsCreated : Nat
  loopsClosed : Nat
deriving DecidableEq, Repr

/-- Embedding of the dispatch loop of `publish` over a snapshot, outside
the lock: each
handler is invoked with the message; a synchronous handler runs inline,
an asynchronous one is awaited on a fresh single-use event loop created
for that call and closed afterwards.  The first exception a handler
raises aborts the loop and propagates. -/
def runPublishLoop (raises : Handler → Message → Option Nat) (m : Message) :
    List Handler → PublishResult
  | [] => ⟨[], none, 0, 0⟩
  | h :: rest =>
      let ev : CallEvent := ⟨h, m, if h.isAsync then .awaited else .inlineRun⟩
      let l : Nat := if h.isAsync then 1 else 0
      match raises h m with
      | some e => ⟨[ev], some e, l, l⟩
      | none =>
          let r := runPublishLoop raises m rest
          ⟨ev :: r.events, r.exc, l + r.loopsCreated, l + r.loopsClosed⟩

/-- Embedding of `Messager.publish(message, token)`: read the message's runtime type
once, snapshot the matching bucket under the lock, then dispatch outside
the lock.  `raises` gives each handler's exception behaviour. -/
def publish (raises : Handler → Message → Option Nat) (s : MessagerState)
    (m : Message) (t : Token) : PublishResult :=
  runPublishLoop raises m (snapshot s m.type t)

/-- One step of the grouping loop of `batch_publish`
(`message_groups[type(msg)].append(msg)` on a `defaultdict(list)`):
append the message to its type's group, creating the group at the end
if the type is a fresh key. -/
def addToGroups (gs : List (PyType × List Message)) (m : Message) :
    List (PyType × List Message) :=
  if m.type ∈ gs.map Prod.fst then
    gs.map (fun g => if g.1 = m.type then (g.1, g.2 ++ [m]) else g)
  else gs ++ [(m.type, [m])]

/-- Embedding of the grouping step of `batch_publish`: `defaultdict(list)`
keyed by
`type(msg)`, so groups appear in order of first occurrence and each group
keeps its messages in original relative order. -/
def groupMessages (msgs : List Message) : List (PyType × List Message) :=
  msgs.foldl addToGroups []

/-- Embedding of `Messager.batch_publish(messages, token)`: group the messages by
runtime type, then for each group snapshot the `(type, token)` bucket and
deliver every message of the group to every handler of the snapshot —
synchronous handlers inline, asynchronous ones merely scheduled via
`asyncio.create_task` without being awaited.  Returns the event trace. -/
def batch_publish (s : MessagerState) (msgs : List Message) (t : Token) :
    List CallEvent :=
  (groupMessages msgs).flatMap (fun g =>
    (snapshot s g.1 t).flatMap (fun h =>
      g.2.map (fun m =>
        ⟨h, m, if h.isAsync then .scheduledOnly else .inlineRun⟩)))

/-- The class-level singleton state of `Messager`: `_INSTANCE` is
`none` before first construction, otherwise the instance's object id
paired with `none` while its attributes are not yet set (between
`__new__` and `__init__`) or `some state` once `__init__` has run;
`fresh` supplies new object ids. -/
structure ClassWorld where
  inst : Option (Nat × Option MessagerState)
  fresh : Nat

/-- Embedding of `Messager.__new__`: under the class lock, allocate an instance only
if `_INSTANCE` is `None`; always return `_INSTANCE`. -/
def messagerNew (w : ClassWorld) : Nat × ClassWorld :=
  match w.inst with
  | some (i, _) => (i, w)
  | none => (w.fresh, ⟨some (w.fresh, none), w.fresh + 1⟩)

/-- Embedding of `Messager.__init__` on instance `i`: if the instance has no
`subscribers` attribute yet, set up the empty store; otherwise leave the
state untouched. -/
def messagerInit (w : ClassWorld) (i : Nat) : ClassWorld :=
  match w.inst with
  | some (j, none) =>
      if j = i then ⟨some (j, some emptyState), w.fresh⟩ else w
  | _ => w

/-- Embedding of `Messager()`: `__new__` followed by `__init__` on the returned
instance; yields the instance id and the updated class state. -/
def messagerCtor (w : ClassWorld) : Nat × ClassWorld :=
  let p := messagerNew w
  (p.1, messagerInit p.2 p.1)

/-- Registry operations, for stating temporal properties over call
sequences.  `publish`/`batch_publish` do not mutate the store, so they
act as the identity on states. -/
inductive Op where
  | sub (h : Handler) (t : Token)
  | subR (r : Receiver)
  | unsub (h : Handler)
  | unsubR (r : Receiver)
  | pub (m : Message) (t : Token)
  | batchPub (msgs : List Message) (t : Token)

/-- The state transition of one registry operation. -/
def applyOp (s : MessagerState) : Op → MessagerState
  | .sub h t => (subscribe s h t).1
  | .subR r => (subscribeReceiver s r).1
  | .unsub h => (unsubscribe s h).1
  | .unsubR r => (unsubscribeReceiver s r).1
  | .pub _ _ => s
  | .batchPub _ _ => s

/-- Run a sequence of registry operations from a state. -/
def applyOps (s : MessagerState) (ops : List Op) : MessagerState :=
  ops.foldl applyOp s

/-- An operation that unsubscribes handler `h`: either `unsubscribe h`
itself or `unsubscribeReceiver` of a receiver whose bound `receive`
method is `h`. -/
def unsubscribesH (h : Handler) : Op → Bool
  | .unsub h' => h' = h
  | .unsubR r => r.receive = h
  | _ => false

/-! ## Helper lemmas about set-semantics lists -/

lemma mem_setAdd_self {α : Type} [DecidableEq α] (x : α) (l : List α) :
    x ∈ setAdd x l := by
  unfold setAdd; split <;> simp_all

lemma mem_setAdd_of_mem {α : Type} [DecidableEq α] {x : α} (y : α) {l : List α}
    (h : x ∈ l) : x ∈ setAdd y l := by
  unfold setAdd; split <;> simp_all

lemma count_setAdd_ne {α : Type} [DecidableEq α] {x y : α} (l : List α)
    (h : y ≠ x) : (setAdd y l).count x = l.count x := by
  unfold setAdd; split
  · rfl
  · simp [List.count_append, List.count_singleton, h]

lemma count_one_setAdd {α : Type} [DecidableEq α] {x : α} (y : α) {l : List α}
    (h : l.count x = 1) : (setAdd y l).count x = 1 := by
  by_cases hxy : y = x
  · subst hxy
    have hm : y ∈ l := by
      have : 0 < l.count y := by omega
      exact List.count_pos_iff.mp this
    unfold setAdd; simp [hm, h]
  · rw [count_setAdd_ne l hxy]; exact h

lemma count_filter_ne {α : Type} [DecidableEq α] {x y : α} (l : List α)
    (h : x ≠ y) : (l.filter (· ≠ y)).count x = l.count x :=
  List.count_filter (by simpa using h)

lemma count_one_mem {α : Type} [DecidableEq α] {x : α} {l : List α}
    (h : l.count x = 1) : x ∈ l :=
  List.count_pos_iff.mp (by omega)

/-! ## Characterizing successful subscription -/

lemma getParameterType_ok {h : Handler} {T : PyType} :
    getParameterType h = .ok T ↔ h.arity = 1 ∧ h.annot = some T := by
  unfold getParameterType
  constructor
  · intro hh
    split at hh
    · cases hh
    · rename_i har
      cases hann : h.annot with
      | none => rw [hann] at hh; cases hh
      | some T' => rw [hann] at hh; cases hh; exact ⟨by omega, rfl⟩
  · rintro ⟨har, hann⟩
    simp [har, hann]

lemma subscribe_eq_of_success {s : MessagerState} {h : Handler} {t : Token}
    (hsub : (subscribe s h t).2 = none) :
    ∃ T, getParameterType h = .ok T ∧ Ident.fn h ∉ s.subscriberSet ∧
      (subscribe s h t).1 =
        { subscribers := bucketInsert s.subscribers T t h,
          subscriberSet := setAdd (Ident.fn h) s.subscriberSet } := by
  by_cases hm : Ident.fn h ∈ s.subscriberSet
  · simp [subscribe, hm] at hsub
  · cases hgp : getParameterType h with
    | error e => simp [subscribe, hm, hgp] at hsub
    | ok T => exact ⟨T, rfl, hm, by simp [subscribe, hm, hgp]⟩

lemma subscribeReceiver_eq_of_success {s : MessagerState} {r : Receiver}
    (hsub : (subscribeReceiver s r).2 = none) :
    ∃ T, getParameterType r.receive = .ok T ∧ Ident.recv r ∉ s.subscriberSet ∧
      (subscribeReceiver s r).1 =
        { subscribers := bucketInsert s.subscribers T (r.tokenAttr.getD none) r.receive,
          subscriberSet := setAdd (Ident.recv r) s.subscriberSet } := by
  by_cases hm : Ident.recv r ∈ s.subscriberSet
  · simp [subscribeReceiver, hm] at hsub
  · cases hgp : getParameterType r.receive with
    | error e => simp [subscribeReceiver, hm, hgp] at hsub
    | ok T => exact ⟨T, rfl, hm, by simp [subscribeReceiver, hm, hgp]⟩

/-! ## Preservation of the subscription invariant along operation sequences -/

lemma fnMem_subscribe {h : Handler} {s : MessagerState} (h' : Handler)
    (t' : Token) (hmem : Ident.fn h ∈ s.subscriberSet) :
    Ident.fn h ∈ (subscribe s h' t').1.subscriberSet := by
  unfold subscribe
  split
  · exact hmem
  · split
    · exact hmem
    · exact mem_setAdd_of_mem _ hmem

lemma fnMem_subscribeReceiver {h : Handler} {s : MessagerState} (r : Receiver)
    (hmem : Ident.fn h ∈ s.subscriberSet) :
    Ident.fn h ∈ (subscribeReceiver s r).1.subscriberSet := by
  unfold subscribeReceiver
  split
  · exact hmem
  · split
    · exact hmem
    · exact mem_setAdd_of_mem _ hmem

lemma fnMem_unsubscribe {h : Handler} {s : MessagerState} {h' : Handler}
    (hne : h' ≠ h) (hmem : Ident.fn h ∈ s.subscriberSet) :
    Ident.fn h ∈ (unsubscribe s h').1.subscriberSet := by
  unfold unsubscribe
  split
  · exact hmem
  · refine List.mem_filter.mpr ⟨hmem, ?_⟩
    simp only [ne_eq, Ident.fn.injEq, decide_not, Bool.not_eq_true', decide_eq_false_iff_not]
    exact fun hc => hne hc.symm

lemma fnMem_unsubscribeReceiver {h : Handler} {s : MessagerState} (r : Receiver)
    (hmem : Ident.fn h ∈ s.subscriberSet) :
    Ident.fn h ∈ (unsubscribeReceiver s r).1.subscriberSet := by
  unfold unsubscribeReceiver
  split
  · exact hmem
  · exact List.mem_filter.mpr ⟨hmem, by simp⟩

lemma fnMem_applyOp {h : Handler} {s : MessagerState} {op : Op}
    (hop : unsubscribesH h op = false)
    (hmem : Ident.fn h ∈ s.subscriberSet) :
    Ident.fn h ∈ (applyOp s op).subscriberSet := by
  cases op with
  | sub h' t' => exact fnMem_subscribe h' t' hmem
  | subR r => exact fnMem_subscribeReceiver r hmem
  | unsub h' =>
      exact fnMem_unsubscribe (by simpa [unsubscribesH] using hop) hmem
  | unsubR r => exact fnMem_unsubscribeReceiver r hmem
  | pub m t' => exact hmem
  | batchPub msgs t' => exact hmem

lemma bucketCount_subscribe {h : Handler} {s : MessagerState} {T : PyType}
    {tk : Token} (h' : Handler) (t' : Token)
    (hmem : Ident.fn h ∈ s.subscriberSet)
    (hcnt : (s.subscribers T tk).count h = 1) :
    ((subscribe s h' t').1.subscribers T tk).count h = 1 := by
  by_cases hh : h' = h
  · subst hh
    simp only [subscribe, if_pos hmem]
    exact hcnt
  · unfold subscribe
    split
    · exact hcnt
    · split
      · exact hcnt
      · simp only [bucketInsert]
        split
        · rename_i hcond
          obtain ⟨h1, h2⟩ := hcond
          subst h1; subst h2
          rw [count_setAdd_ne _ hh]
          exact hcnt
        · exact hcnt

lemma bucketCount_subscribeReceiver {h : Handler} {s : MessagerState}
    {T : PyType} {tk : Token} (r : Receiver)
    (hcnt : (s.subscribers T tk).count h = 1) :
    ((subscribeReceiver s r).1.subscribers T tk).count h = 1 := by
  unfold subscribeReceiver
  split
  · exact hcnt
  · split
    · exact hcnt
    · simp only [bucketInsert]
      split
      · rename_i hcond
        obtain ⟨h1, h2⟩ := hcond
        subst h1; subst h2
        exact count_one_setAdd _ hcnt
      · exact hcnt

lemma bucketCount_unsubscribe {h : Handler} {s : MessagerState} {T : PyType}
    {tk : Token} {h' : Handler} (hne : h' ≠ h)
    (hcnt : (s.subscribers T tk).count h = 1) :
    ((unsubscribe s h').1.subscribers T tk).count h = 1 := by
  unfold unsubscribe
  split
  · exact hcnt
  · show (if T = _ then _ else _ : List Handler).count h = 1
    split
    · rw [count_filter_ne _ (fun he => hne he.symm)]
      exact hcnt
    · exact hcnt

lemma bucketCount_unsubscribeReceiver {h : Handler} {s : MessagerState}
    {T : PyType} {tk : Token} {r : Receiver} (hne : r.receive ≠ h)
    (hcnt : (s.subscribers T tk).count h = 1) :
    ((unsubscribeReceiver s r).1.subscribers T tk).count h = 1 := by
  unfold unsubscribeReceiver
  split
  · exact hcnt
  · show (if T = _ then _ else _ : List Handler).count h = 1
    split
    · rw [count_filter_ne _ (fun he => hne he.symm)]
      exact hcnt
    · exact hcnt

/-- One registry operation that does not unsubscribe `h` preserves the
invariant "`h` is registered in the identity set and appears exactly once
in the bucket for `(T, tk)`". -/
lemma inv_applyOp {h : Handler} {T : PyType} {tk : Token} {s : MessagerState}
    {op : Op} (hop : unsubscribesH h op = false)
    (hinv : Ident.fn h ∈ s.subscriberSet ∧ (s.subscribers T tk).count h = 1) :
    Ident.fn h ∈ (applyOp s op).subscriberSet ∧
      ((applyOp s op).subscribers T tk).count h = 1 := by
  obtain ⟨hmem, hcnt⟩ := hinv
  refine ⟨fnMem_applyOp hop hmem, ?_⟩
  cases op with
  | sub h' t' => exact bucketCount_subscribe h' t' hmem hcnt
  | subR r => exact bucketCount_subscribeReceiver r hcnt
  | unsub h' =>
      exact bucketCount_unsubscribe (by simpa [unsubscribesH] using hop) hcnt
  | unsubR r =>
      exact bucketCount_unsubscribeReceiver
        (by simpa [unsubscribesH] using hop) hcnt
  | pub m t' => exact hcnt
  | batchPub msgs t' => exact hcnt

/-- The invariant of `inv_applyOp` is preserved along any sequence of
registry operations none of which unsubscribes `h`. -/
lemma inv_applyOps {h : Handler} {T : PyType} {tk : Token} {s : MessagerState}
    {ops : List Op} (hops : ∀ op ∈ ops, unsubscribesH h op = false)
    (hinv : Ident.fn h ∈ s.subscriberSet ∧ (s.subscribers T tk).count h = 1) :
    Ident.fn h ∈ (applyOps s ops).subscriberSet ∧
      ((applyOps s ops).subscribers T tk).count h = 1 := by
  induction ops generalizing s with
  | nil => exact hinv
  | cons op rest ih =>
      simp only [applyOps, List.foldl_cons]
      exact ih (fun o ho => hops o (List.mem_cons_of_mem _ ho))
        (inv_applyOp (hops op (List.mem_cons_self op rest)) hinv)

/-! ## Lemmas about the publish dispatch loop -/

/-- When no handler of the snapshot raises, the loop of `publish` calls every
handler once, in snapshot order, with the message; async handlers are
awaited, and one private event loop is created and closed per async
handler invocation. -/
lemma runPublishLoop_no_exc {raises : Handler → Message → Option Nat}
    {m : Message} {hs : List Handler} (hr : ∀ h ∈ hs, raises h m = none) :
    runPublishLoop raises m hs =
      ⟨hs.map (fun h => ⟨h, m, if h.isAsync then .awaited else .inlineRun⟩),
       none, (hs.filter (·.isAsync)).length, (hs.filter (·.isAsync)).length⟩ := by
  induction hs with
  | nil => rfl
  | cons h rest ih =>
      have h1 : raises h m = none := hr h (List.mem_cons_self h rest)
      rw [runPublishLoop, h1, ih (fun x hx => hr x (List.mem_cons_of_mem _ hx))]
      cases hA : h.isAsync <;> simp [List.filter_cons, hA]
      omega

/-- Every event of the loop of `publish` calls a handler of the snapshot, passes
the published message, and runs the handler inline if synchronous and on an
awaited event loop if asynchronous. -/
lemma runPublishLoop_event_mem {raises : Handler → Message → Option Nat}
    {m : Message} {hs : List Handler} {e : CallEvent}
    (he : e ∈ (runPublishLoop raises m hs).events) :
    e.handler ∈ hs ∧ e.message = m ∧
      e.delivery = (if e.handler.isAsync then Delivery.awaited
                    else Delivery.inlineRun) := by
  induction hs with
  | nil => simp only [runPublishLoop, List.not_mem_nil] at he
  | cons h rest ih =>
      cases hrm : raises h m with
      | some ex =>
          simp only [runPublishLoop, hrm, List.mem_singleton] at he
          subst he
          exact ⟨List.mem_cons_self _ _, rfl, rfl⟩
      | none =>
          simp only [runPublishLoop, hrm, List.mem_cons] at he
          cases he with
          | inl h1 => subst h1; exact ⟨List.mem_cons_self _ _, rfl, rfl⟩
          | inr h2 =>
              obtain ⟨ha, hb, hc⟩ := ih h2
              exact ⟨List.mem_cons_of_mem _ ha, hb, hc⟩

/-- If the handlers before `hr` in the snapshot return normally and `hr`
raises, the loop calls exactly the handlers up to and including `hr` and
propagates the exception of `hr`; the handlers after `hr` are never called. -/
lemma runPublishLoop_abort {raises : Handler → Message → Option Nat}
    {m : Message} {pre : List Handler} {hr : Handler} {post : List Handler}
    {e : Nat} (hpre : ∀ h ∈ pre, raises h m = none)
    (hexc : raises hr m = some e) :
    (runPublishLoop raises m (pre ++ hr :: post)).events =
      (pre ++ [hr]).map
        (fun h => ⟨h, m, if h.isAsync then .awaited else .inlineRun⟩) ∧
    (runPublishLoop raises m (pre ++ hr :: post)).exc = some e := by
  induction pre with
  | nil => simp [runPublishLoop, hexc]
  | cons h pre' ih =>
      have h1 : raises h m = none := hpre h (List.mem_cons_self _ _)
      obtain ⟨ihev, ihexc⟩ := ih (fun x hx => hpre x (List.mem_cons_of_mem _ hx))
      constructor
      · simp only [List.cons_append, runPublishLoop, h1, List.append_eq]
        rw [ihev]
        simp
      · simp only [List.cons_append, runPublishLoop, h1, List.append_eq]
        exact ihexc

/-! ## Lemmas about batch grouping and dispatch -/

lemma flatMap_sel_of_not_mem {gs : List (PyType × List Message)} {T : PyType}
    (h : T ∉ gs.map Prod.fst) :
    gs.flatMap (fun g => if g.1 = T then g.2 else []) = [] := by
  induction gs with
  | nil => rfl
  | cons g gs' ih =>
      simp only [List.map_cons, List.mem_cons] at h
      push_neg at h
      simp only [List.flatMap_cons, if_neg (fun hc : g.1 = T => h.1 hc.symm)]
      simpa using ih h.2

lemma map_update_of_not_mem {gs : List (PyType × List Message)} {T : PyType}
    {m : Message} (h : T ∉ gs.map Prod.fst) :
    gs.map (fun g => if g.1 = T then (g.1, g.2 ++ [m]) else g) = gs := by
  induction gs with
  | nil => rfl
  | cons g gs' ih =>
      simp only [List.map_cons, List.mem_cons] at h
      push_neg at h
      simp only [List.map_cons, if_neg (fun hc : g.1 = T => h.1 hc.symm)]
      rw [ih h.2]

lemma flatMap_sel_update {gs : List (PyType × List Message)} {T : PyType}
    {m : Message} (hnd : (gs.map Prod.fst).Nodup) :
    (gs.map (fun g => if g.1 = T then (g.1, g.2 ++ [m]) else g)).flatMap
        (fun g => if g.1 = T then g.2 else []) =
      gs.flatMap (fun g => if g.1 = T then g.2 else []) ++
        (if T ∈ gs.map Prod.fst then [m] else []) := by
  induction gs with
  | nil => rfl
  | cons g gs' ih =>
      simp only [List.map_cons, List.nodup_cons] at hnd
      obtain ⟨hg, hnd'⟩ := hnd
      by_cases hgT : g.1 = T
      · have hTnot : T ∉ gs'.map Prod.fst := by rw [← hgT]; exact hg
        simp only [List.map_cons, if_pos hgT, List.flatMap_cons]
        rw [map_update_of_not_mem hTnot, flatMap_sel_of_not_mem hTnot]
        have hTmem : T ∈ g.1 :: gs'.map Prod.fst := by
          rw [hgT]; exact List.mem_cons_self _ _
        simp [hgT, hTmem]
      · have hTg : ¬(T = g.1) := fun hc => hgT hc.symm
        simp only [List.map_cons, if_neg hgT, List.flatMap_cons, if_neg hgT]
        rw [ih hnd']
        by_cases hTm : T ∈ gs'.map Prod.fst <;>
          simp [hTg, hTm, List.mem_cons, List.append_assoc]

lemma sel_update_ne {gs : List (PyType × List Message)} {T : PyType}
    {m : Message} (hne : m.type ≠ T) :
    (gs.map (fun g => if g.1 = m.type then (g.1, g.2 ++ [m]) else g)).flatMap
        (fun g => if g.1 = T then g.2 else []) =
      gs.flatMap (fun g => if g.1 = T then g.2 else []) := by
  induction gs with
  | nil => rfl
  | cons g gs' ih =>
      simp only [List.map_cons, List.flatMap_cons, ih]
      congr 1
      by_cases hgm : g.1 = m.type
      · rw [if_pos hgm]
        have hgT : ¬(g.1 = T) := by rw [hgm]; exact hne
        simp [hgT]
      · rw [if_neg hgm]

lemma addToGroups_keys_nodup {gs : List (PyType × List Message)} {m : Message}
    (h : (gs.map Prod.fst).Nodup) : ((addToGroups gs m).map Prod.fst).Nodup := by
  unfold addToGroups
  split
  · have heq : (gs.map (fun g => if g.1 = m.type then (g.1, g.2 ++ [m]) else g)).map
        Prod.fst = gs.map Prod.fst := by
      rw [List.map_map]
      apply List.map_congr_left
      intro g hg
      by_cases hgm : g.1 = m.type <;> simp [hgm]
    rw [heq]; exact h
  · rename_i hmem
    simp only [List.map_append, List.map_cons, List.map_nil]
    exact List.Nodup.append h (List.nodup_singleton _)
      (List.disjoint_singleton.mpr hmem)

lemma flatMap_sel_addToGroups {gs : List (PyType × List Message)} {m : Message}
    {T : PyType} (hnd : (gs.map Prod.fst).Nodup) :
    (addToGroups gs m).flatMap (fun g => if g.1 = T then g.2 else []) =
      gs.flatMap (fun g => if g.1 = T then g.2 else []) ++
        (if m.type = T then [m] else []) := by
  unfold addToGroups
  split
  · rename_i hmem
    by_cases hmT : m.type = T
    · subst hmT
      rw [flatMap_sel_update hnd, if_pos hmem, if_pos rfl]
    · rw [sel_update_ne hmT, if_neg hmT]
      simp
  · rw [List.flatMap_append]
    simp only [List.flatMap_cons, List.flatMap_nil]
    by_cases hmT : m.type = T <;> simp [hmT]

lemma flatMap_sel_foldl (T : PyType) (msgs : List Message) :
    ∀ gs : List (PyType × List Message), (gs.map Prod.fst).Nodup →
      (msgs.foldl addToGroups gs).flatMap (fun g => if g.1 = T then g.2 else []) =
        gs.flatMap (fun g => if g.1 = T then g.2 else []) ++
          msgs.filter (fun m => m.type = T) := by
  induction msgs with
  | nil => intro gs _; simp
  | cons m rest ih =>
      intro gs hnd
      simp only [List.foldl_cons]
      rw [ih (addToGroups gs m) (addToGroups_keys_nodup hnd),
        flatMap_sel_addToGroups hnd, List.filter_cons]
      by_cases hmT : m.type = T <;> simp [hmT, List.append_assoc]

/-- The grouping of `batch_publish` preserves, for each type `T`, exactly
the messages of runtime type `T` in their original relative order. -/
lemma flatMap_sel_groupMessages (msgs : List Message) (T : PyType) :
    (groupMessages msgs).flatMap (fun g => if g.1 = T then g.2 else []) =
      msgs.filter (fun m => m.type = T) := by
  have h := flatMap_sel_foldl T msgs [] (by simp)
  simpa [groupMessages] using h

lemma filter_flatMap {α β : Type} (l : List α) (f : α → List β) (p : β → Bool) :
    (l.flatMap f).filter p = l.flatMap (fun a => (f a).filter p) := by
  induction l with
  | nil => rfl
  | cons a l' ih => simp [List.flatMap_cons, List.filter_append, ih]

lemma flatMap_if_not_mem {α β : Type} [DecidableEq α] {hs : List α} {a : α}
    (h : a ∉ hs) (C : List β) :
    hs.flatMap (fun x => if x = a then C else []) = [] := by
  induction hs with
  | nil => rfl
  | cons x hs' ih =>
      simp only [List.mem_cons] at h
      push_neg at h
      simp only [List.flatMap_cons, if_neg (fun hc : x = a => h.1 hc.symm)]
      simpa using ih h.2

lemma flatMap_if_count_one {α β : Type} [DecidableEq α] {hs : List α} {a : α}
    (h1 : hs.count a = 1) (C : List β) :
    hs.flatMap (fun x => if x = a then C else []) = C := by
  induction hs with
  | nil => simp at h1
  | cons x hs' ih =>
      by_cases hx : x = a
      · subst hx
        rw [List.count_cons_self] at h1
        have h0 : x ∉ hs' := List.count_eq_zero.mp (by omega)
        simp only [List.flatMap_cons, if_pos rfl]
        rw [flatMap_if_not_mem h0]
        simp
      · rw [List.count_cons_of_ne (fun hc => hx hc.symm)] at h1
        simp only [List.flatMap_cons, if_neg hx]
        simpa using ih h1

/-- In a `batch_publish` trace, a handler subscribed exactly once under
`(T, t)` and under no other type for the same token receives exactly the
messages of runtime type `T`, in their original relative order. -/
lemma batch_filter_handler {s : MessagerState} {h : Handler} {T : PyType}
    {t : Token} (msgs : List Message)
    (hcnt : (s.subscribers T t).count h = 1)
    (honly : ∀ T', T' ≠ T → h ∉ s.subscribers T' t) :
    (batch_publish s msgs t).filter (fun e => e.handler = h) =
      (msgs.filter (fun m => m.type = T)).map
        (fun m => ⟨h, m, if h.isAsync then .scheduledOnly else .inlineRun⟩) := by
  unfold batch_publish
  rw [filter_flatMap]
  have hgroup : ∀ g : PyType × List Message,
      (((snapshot s g.1 t).flatMap (fun h' => g.2.map
          (fun m => (⟨h', m, if h'.isAsync then .scheduledOnly
                             else .inlineRun⟩ : CallEvent)))).filter
        (fun e => e.handler = h)) =
      (if g.1 = T then g.2 else []).map
        (fun m => (⟨h, m, if h.isAsync then .scheduledOnly
                          else .inlineRun⟩ : CallEvent)) := by
    intro g
    rw [filter_flatMap]
    have hinner : ∀ h' : Handler,
        ((g.2.map (fun m => (⟨h', m, if h'.isAsync then .scheduledOnly
                                     else .inlineRun⟩ : CallEvent))).filter
          (fun e => e.handler = h)) =
        if h' = h then g.2.map (fun m => (⟨h, m,
            if h.isAsync then .scheduledOnly else .inlineRun⟩ : CallEvent))
        else [] := by
      intro h'
      rw [List.filter_map]
      by_cases hh : h' = h
      · subst hh
        simp [Function.comp_def, List.filter_eq_self]
      · simp [Function.comp_def, hh]
    simp only [hinner]
    by_cases hgT : g.1 = T
    · subst hgT
      rw [if_pos rfl]
      exact flatMap_if_count_one hcnt _
    · rw [if_neg hgT]
      have hnot : h ∉ snapshot s g.1 t := honly g.1 hgT
      rw [flatMap_if_not_mem hnot]
      simp
  simp only [hgroup]
  have hmap : (fun g : PyType × List Message =>
      (if g.1 = T then g.2 else []).map
        (fun m => (⟨h, m, if h.isAsync then .scheduledOnly
                          else .inlineRun⟩ : CallEvent))) =
      (fun g : PyType × List Message =>
        ((fun gm => gm.map (fun m => (⟨h, m,
            if h.isAsync then .scheduledOnly else .inlineRun⟩ : CallEvent)))
          (if g.1 = T then g.2 else []))) := rfl
  rw [hmap]
  rw [← List.map_flatMap]
  rw [flatMap_sel_groupMessages]

lemma fnMem_applyOps {h : Handler} {s : MessagerState} {ops : List Op}
    (hops : ∀ op ∈ ops, unsubscribesH h op = false)
    (hmem : Ident.fn h ∈ s.subscriberSet) :
    Ident.fn h ∈ (applyOps s ops).subscriberSet := by
  induction ops generalizing s with
  | nil => exact hmem
  | cons op rest ih =>
      simp only [applyOps, List.foldl_cons]
      exact ih (fun o ho => hops o (List.mem_cons_of_mem _ ho))
        (fnMem_applyOp (hops op (List.mem_cons_self _ _)) hmem)

/-- A handler appearing exactly once in the matching bucket is called
exactly once by `publish`, with exactly the published message. -/
lemma publish_filter_handler {s : MessagerState} {h : Handler} {T : PyType}
    {t : Token} {m : Message} {raises : Handler → Message → Option Nat}
    (hcnt : (s.subscribers T t).count h = 1) (hmtype : m.type = T)
    (hraises : ∀ h', raises h' m = none) :
    ((publish raises s m t).events.filter (fun e => e.handler = h)) =
      [⟨h, m, if h.isAsync then .awaited else .inlineRun⟩] := by
  subst hmtype
  rw [publish, runPublishLoop_no_exc (fun h' _ => hraises h')]
  show ((snapshot s m.type t).map _).filter _ = _
  rw [List.filter_map]
  have hp : ((fun e : CallEvent => decide (e.handler = h)) ∘
      (fun h' : Handler => (⟨h', m, if h'.isAsync then .awaited
                                    else .inlineRun⟩ : CallEvent))) =
      fun x : Handler => decide (x = h) := rfl
  have hc2 : List.count h (snapshot s m.type t) = 1 := hcnt
  rw [hp, List.filter_eq, hc2]
  rfl

/-- Every event of a `batch_publish` trace delivers inline when the handler
is synchronous and by unawaited scheduling when it is asynchronous. -/
lemma batch_event_shape {s : MessagerState} {msgs : List Message} {t : Token}
    {e : CallEvent} (he : e ∈ batch_publish s msgs t) :
    e.delivery = if e.handler.isAsync then Delivery.scheduledOnly
                 else Delivery.inlineRun := by
  unfold batch_publish at he
  simp only [List.mem_flatMap, List.mem_map] at he
  obtain ⟨g, -, h', -, m, -, rfl⟩ := he
  rfl

/-! ## Claim theorems -/

/-- Claim C1: For every handler `h` with declared parameter type `T` and
every message `m` with `type(m) = T` and every token `t`: after
`subscribe(h, t)` and before any unsubscription of `h` (neither
`unsubscribe(h)` nor `unsubscribeReceiver` of a receiver whose bound
`receive` method is `h`), a call `publish(m, t)` invokes `h` exactly
once, passing exactly the value `m` — stated as: the publish trace
restricted to `h` is the single call of `h` with `m`.  `h` is assumed
fresh (in no bucket) before its subscription, and all handlers return
normally on `m`. -/
theorem C1_publish_invokes_exactly_once (s : MessagerState) (h : Handler)
    (t : Token) (T : PyType) (m : Message) (ops : List Op)
    (raises : Handler → Message → Option Nat)
    (hclean : ∀ T' t', h ∉ s.subscribers T' t')
    (hsub : (subscribe s h t).2 = none)
    (hT : h.annot = some T)
    (hops : ∀ op ∈ ops, unsubscribesH h op = false)
    (hmtype : m.type = T)
    (hraises : ∀ h', raises h' m = none) :
    ((publish raises (applyOps (subscribe s h t).1 ops) m t).events.filter
        (fun e => e.handler = h)) =
      [⟨h, m, if h.isAsync then .awaited else .inlineRun⟩] := by
  obtain ⟨T₀, hgp, hnmem, hstate⟩ := subscribe_eq_of_success hsub
  have hT0 : T₀ = T := by
    have hann := (getParameterType_ok.mp hgp).2
    rw [hT] at hann
    injection hann with hh
    exact hh.symm
  subst hT0
  have hmem1 : Ident.fn h ∈ ((subscribe s h t).1).subscriberSet := by
    rw [hstate]; exact mem_setAdd_self _ _
  have hcnt1 : (((subscribe s h t).1).subscribers T₀ t).count h = 1 := by
    rw [hstate]
    show ((bucketInsert s.subscribers T₀ t h) T₀ t).count h = 1
    simp only [bucketInsert, and_self, if_true]
    unfold setAdd
    rw [if_neg (hclean T₀ t), List.count_append,
      List.count_eq_zero.mpr (hclean T₀ t)]
    simp
  obtain ⟨-, hcnt2⟩ := inv_applyOps hops ⟨hmem1, hcnt1⟩
  exact publish_filter_handler hcnt2 hmtype hraises

/-- Witness for C1 at a concrete registry: one synchronous handler of
declared type `0` subscribed under token `1`, published the message
`⟨0, 42⟩` with no intervening operations. -/
theorem C1_witness :
    ((publish (fun _ _ => none)
        (applyOps (subscribe emptyState ⟨0, 1, some 0, false⟩ (some 1)).1 [])
        ⟨0, 42⟩ (some 1)).events.filter
      (fun e => e.handler = ⟨0, 1, some 0, false⟩)) =
      [⟨⟨0, 1, some 0, false⟩, ⟨0, 42⟩, .inlineRun⟩] := by
  have h := C1_publish_invokes_exactly_once emptyState ⟨0, 1, some 0, false⟩
    (some 1) 0 ⟨0, 42⟩ [] (fun _ _ => none)
    (fun T' t' => by simp [emptyState]) (by decide) rfl
    (fun op hop => absurd hop (List.not_mem_nil op)) rfl (fun _ => rfl)
  simpa using h

/-- Claim C2: A handler subscribed (only) with declared type `T` under token
`t` is invoked by `publish(m, t')` only if the runtime type of `m` is
exactly (nominally) equal to `T` and `t'` equals `t`; in particular
`publish(m, t2)` with `t2 ≠ t` never invokes `h`.  Matching is decidable
equality of the runtime type tag, never structural or supertype
matching. -/
theorem C2_exact_nominal_and_token_match (s : MessagerState) (h : Handler)
    (T : PyType) (t t' : Token) (m : Message)
    (raises : Handler → Message → Option Nat) (e : CallEvent)
    (honly : ∀ T₀ t₀, h ∈ s.subscribers T₀ t₀ → T₀ = T ∧ t₀ = t)
    (he : e ∈ (publish raises s m t').events) (heh : e.handler = h) :
    m.type = T ∧ t' = t := by
  have hmem := (runPublishLoop_event_mem he).1
  rw [heh] at hmem
  exact honly m.type t' hmem

/-- Witness for C2: a registry whose only bucket containing the handler is
`(type 0, token 1)`, an event of the handler produced by
`publish(⟨0, 7⟩, token 1)`. -/
theorem C2_witness :
    (⟨0, 7⟩ : Message).type = 0 ∧ (some 1 : Token) = some 1 := by
  refine C2_exact_nominal_and_token_match
    ⟨fun T₀ t₀ => if T₀ = 0 ∧ t₀ = some 1 then [⟨0, 1, some 0, false⟩] else [],
      [Ident.fn ⟨0, 1, some 0, false⟩]⟩
    ⟨0, 1, some 0, false⟩ 0 (some 1) (some 1) ⟨0, 7⟩ (fun _ _ => none)
    ⟨⟨0, 1, some 0, false⟩, ⟨0, 7⟩, .inlineRun⟩ ?_ ?_ rfl
  · intro T₀ t₀ hm
    dsimp only at hm
    by_cases hc : T₀ = 0 ∧ t₀ = some 1
    · exact hc
    · rw [if_neg hc] at hm
      cases hm
  · decide

/-- Claim C3: A handler that is currently subscribed (here: subscribed by a
successful `subscribe(h, t)` followed by any operations that do not
unsubscribe `h`) raises `SubscriptionError` (the duplicate case) on a
second `subscribe(h, t')`, for every token `t'` — including a token
different from the first — and the failing call leaves the state
unchanged. -/
theorem C3_resubscribe_raises (s : MessagerState) (h : Handler)
    (t t' : Token) (ops : List Op)
    (hsub : (subscribe s h t).2 = none)
    (hops : ∀ op ∈ ops, unsubscribesH h op = false) :
    subscribe (applyOps (subscribe s h t).1 ops) h t' =
      (applyOps (subscribe s h t).1 ops, some .duplicate) := by
  obtain ⟨T₀, hgp, hnmem, hstate⟩ := subscribe_eq_of_success hsub
  have hmem1 : Ident.fn h ∈ ((subscribe s h t).1).subscriberSet := by
    rw [hstate]; exact mem_setAdd_self _ _
  have hmem2 := fnMem_applyOps hops hmem1
  set s₂ := applyOps (subscribe s h t).1 ops with hs₂
  simp [subscribe, hmem2]

/-- Witness for C3: subscribing the same handler again under a different
token after a successful subscription raises the duplicate error. -/
theorem C3_witness :
    subscribe (applyOps (subscribe emptyState ⟨0, 1, some 0, false⟩ (some 1)).1 [])
        ⟨0, 1, some 0, false⟩ (some 2) =
      (applyOps (subscribe emptyState ⟨0, 1, some 0, false⟩ (some 1)).1 [],
        some .duplicate) :=
  C3_resubscribe_raises emptyState ⟨0, 1, some 0, false⟩ (some 1) (some 2) []
    (by decide) (fun op hop => absurd hop (List.not_mem_nil op))

/-- Claim C4, counterexample: The claim asserts that after
`subscribeReceiver(r)` a call `subscribe(r.receive)` fails with
`SubscriptionError`.  In the code the identity recorded by
`subscribeReceiver` is the receiver object itself, not its bound
`receive` method, so at this concrete input both calls succeed
(`none` = no error raised), refuting the claim. -/
theorem C4_counterexample :
    (subscribeReceiver emptyState ⟨0, some (some 1), ⟨1, 1, some 0, false⟩⟩).2
        = none ∧
    (subscribe (subscribeReceiver emptyState
        ⟨0, some (some 1), ⟨1, 1, some 0, false⟩⟩).1
      (⟨0, some (some 1), ⟨1, 1, some 0, false⟩⟩ : Receiver).receive none).2
        = none := by
  constructor <;> decide

/-- Claim C4, amended: The global identity set rejects re-subscription of
the same plain handler via `subscribe` and of the same receiver object
via `subscribeReceiver`, anywhere in the registry regardless of type or
token; but the identity stored by `subscribeReceiver` is the receiver
object, not its bound `receive` method, so after `subscribeReceiver(r)`
a `subscribe(r.receive, t)` is *not* rejected (and succeeds whenever the
bound method was not itself subscribed before). -/
theorem C4_receiver_identity_is_object (s : MessagerState) (r : Receiver)
    (t : Token)
    (hfn : Ident.fn r.receive ∉ s.subscriberSet)
    (hsubR : (subscribeReceiver s r).2 = none) :
    (subscribeReceiver (subscribeReceiver s r).1 r).2 = some .duplicate ∧
    (subscribe (subscribeReceiver s r).1 r.receive t).2 = none := by
  obtain ⟨T₀, hgp, hnmem, hstate⟩ := subscribeReceiver_eq_of_success hsubR
  constructor
  · rw [hstate]
    simp [subscribeReceiver, mem_setAdd_self]
  · rw [hstate]
    have h1 : Ident.fn r.receive ∉ setAdd (Ident.recv r) s.subscriberSet := by
      intro hmem
      unfold setAdd at hmem
      split at hmem
      · exact hfn hmem
      · rcases List.mem_append.mp hmem with hx | hx
        · exact hfn hx
        · simp at hx
    simp [subscribe, h1, hgp]

/-- Witness for the amended C4 at the concrete receiver of the
counterexample. -/
theorem C4_witness :
    (subscribeReceiver (subscribeReceiver emptyState
        ⟨0, some (some 1), ⟨1, 1, some 0, false⟩⟩).1
      ⟨0, some (some 1), ⟨1, 1, some 0, false⟩⟩).2 = some .duplicate ∧
    (subscribe (subscribeReceiver emptyState
        ⟨0, some (some 1), ⟨1, 1, some 0, false⟩⟩).1
      (⟨0, some (some 1), ⟨1, 1, some 0, false⟩⟩ : Receiver).receive none).2
        = none :=
  C4_receiver_identity_is_object emptyState
    ⟨0, some (some 1), ⟨1, 1, some 0, false⟩⟩ none (by decide) (by decide)

/-- Claim C5, counterexample: The claim asserts `unsubscribe(h)` of a
never-subscribed handler returns normally for *every* handler, including
one whose signature violates the subscription contract.  But
`unsubscribe` introspects the parameter type before touching the store,
so for a zero-parameter handler (never subscribed — the registry is
empty) it raises the arity error instead of returning normally. -/
theorem C5_counterexample :
    (unsubscribe emptyState ⟨0, 0, none, false⟩).2 = some .badArity := by
  decide

/-- Claim C5, amended: `unsubscribe(h)` (resp. `unsubscribeReceiver(r)`) of
a handler (receiver) that is not currently subscribed returns normally,
raises no error and leaves the registry unchanged, *provided* the
handler (the receiver's `receive` method) satisfies the signature
contract: exactly one parameter with an explicit type annotation.  For a
callable violating that contract, `unsubscribe` raises the signature
error even though nothing was subscribed. -/
theorem C5_unsubscribe_noop (s : MessagerState) (h : Handler) (r : Receiver)
    (T Tr : PyType)
    (hgp : getParameterType h = .ok T)
    (hnb : ∀ t', h ∉ s.subscribers T t')
    (hns : Ident.fn h ∉ s.subscriberSet)
    (hgpr : getParameterType r.receive = .ok Tr)
    (hnbr : ∀ t', r.receive ∉ s.subscribers Tr t')
    (hnsr : Ident.recv r ∉ s.subscriberSet) :
    unsubscribe s h = (s, none) ∧ unsubscribeReceiver s r = (s, none) := by
  constructor
  · simp only [unsubscribe, hgp]
    have hsubs : (fun T' t' => if T' = T
          then (s.subscribers T' t').filter (· ≠ h)
          else s.subscribers T' t') = s.subscribers := by
      funext T' t'
      split
      · rename_i hT'
        subst hT'
        apply List.filter_eq_self.mpr
        intro a ha
        have hne : a ≠ h := fun hc => hnb t' (hc ▸ ha)
        simpa using hne
      · rfl
    have hset : s.subscriberSet.filter (· ≠ Ident.fn h) = s.subscriberSet := by
      apply List.filter_eq_self.mpr
      intro a ha
      have hne : a ≠ Ident.fn h := fun hc => hns (hc ▸ ha)
      simpa using hne
    rw [hsubs, hset]
  · simp only [unsubscribeReceiver, hgpr]
    have hsubs : (fun T' t' => if T' = Tr
          then (s.subscribers T' t').filter (· ≠ r.receive)
          else s.subscribers T' t') = s.subscribers := by
      funext T' t'
      split
      · rename_i hT'
        subst hT'
        apply List.filter_eq_self.mpr
        intro a ha
        have hne : a ≠ r.receive := fun hc => hnbr t' (hc ▸ ha)
        simpa using hne
      · rfl
    have hset : s.subscriberSet.filter (· ≠ Ident.recv r) = s.subscriberSet := by
      apply List.filter_eq_self.mpr
      intro a ha
      have hne : a ≠ Ident.recv r := fun hc => hnsr (hc ▸ ha)
      simpa using hne
    rw [hsubs, hset]

/-- Witness for the amended C5: on the empty registry, unsubscribing a
well-formed but never-subscribed handler and receiver is a silent no-op. -/
theorem C5_witness :
    unsubscribe emptyState ⟨0, 1, some 0, false⟩ = (emptyState, none) ∧
    unsubscribeReceiver emptyState ⟨1, none, ⟨2, 1, some 3, true⟩⟩ =
      (emptyState, none) :=
  C5_unsubscribe_noop emptyState ⟨0, 1, some 0, false⟩
    ⟨1, none, ⟨2, 1, some 3, true⟩⟩ 0 3 rfl
    (fun t' => by simp [emptyState]) (by decide) rfl
    (fun t' => by simp [emptyState]) (by decide)

/-- Claim C6: `batch_publish` partitions the messages by runtime type
preserving each message's original relative order within its type group,
and a handler subscribed once for `(T, t)` (and under no other type for
that token) receives exactly the messages of type `T`, in their original
relative order: the batch trace restricted to the handler equals the
type-`T` subsequence of the input, in order. -/
theorem C6_batch_publish_preserves_order (s : MessagerState) (h : Handler)
    (T : PyType) (t : Token) (msgs : List Message)
    (hcnt : (s.subscribers T t).count h = 1)
    (honly : ∀ T', T' ≠ T → h ∉ s.subscribers T' t) :
    (batch_publish s msgs t).filter (fun e => e.handler = h) =
      (msgs.filter (fun m => m.type = T)).map
        (fun m => ⟨h, m, if h.isAsync then .scheduledOnly else .inlineRun⟩) :=
  batch_filter_handler msgs hcnt honly

/-- Witness for C6: a single synchronous subscriber for type 0 under the
default token receives `a, b, c` (payloads 1, 2, 3) in exactly that
order. -/
theorem C6_witness :
    (batch_publish
        ⟨fun T₀ t₀ => if T₀ = 0 ∧ t₀ = none then [⟨0, 1, some 0, false⟩] else [],
          [Ident.fn ⟨0, 1, some 0, false⟩]⟩
        [⟨0, 1⟩, ⟨0, 2⟩, ⟨0, 3⟩] none).filter
      (fun e => e.handler = ⟨0, 1, some 0, false⟩) =
      [⟨⟨0, 1, some 0, false⟩, ⟨0, 1⟩, .inlineRun⟩,
       ⟨⟨0, 1, some 0, false⟩, ⟨0, 2⟩, .inlineRun⟩,
       ⟨⟨0, 1, some 0, false⟩, ⟨0, 3⟩, .inlineRun⟩] := by
  have h := C6_batch_publish_preserves_order
    ⟨fun T₀ t₀ => if T₀ = 0 ∧ t₀ = none then [⟨0, 1, some 0, false⟩] else [],
      [Ident.fn ⟨0, 1, some 0, false⟩]⟩
    ⟨0, 1, some 0, false⟩ 0 none [⟨0, 1⟩, ⟨0, 2⟩, ⟨0, 3⟩]
    (by decide)
    (fun T' hT' => by
      dsimp only
      rw [if_neg (fun hc => hT' hc.1)]
      exact List.not_mem_nil _)
  simpa using h

/-- Claim C7: If a handler invoked during `publish(m, t)` raises, the
exception propagates unmodified to the caller, no handler of the
dispatch snapshot that had not yet been reached is invoked, and the
calls already made (the handlers before the raising one, in snapshot
order) are exactly the trace prefix: the events are precisely the calls
to `pre ++ [hr]` and the propagated exception is that of `hr`. -/
theorem C7_handler_exception_aborts_dispatch (s : MessagerState) (m : Message)
    (t : Token) (raises : Handler → Message → Option Nat)
    (pre post : List Handler) (hr : Handler) (e : Nat)
    (hsnap : snapshot s m.type t = pre ++ hr :: post)
    (hpre : ∀ h ∈ pre, raises h m = none)
    (hexc : raises hr m = some e) :
    (publish raises s m t).events =
      (pre ++ [hr]).map
        (fun h => ⟨h, m, if h.isAsync then .awaited else .inlineRun⟩) ∧
    (publish raises s m t).exc = some e := by
  rw [publish, hsnap]
  exact runPublishLoop_abort hpre hexc

/-- Witness for C7: two subscribed handlers; the first raises exception 7,
so the trace stops after its call and the exception propagates. -/
theorem C7_witness :
    (publish (fun h' _ => if h'.id = 1 then some 7 else none)
        ⟨fun T₀ t₀ => if T₀ = 0 ∧ t₀ = none
            then [⟨1, 1, some 0, false⟩, ⟨2, 1, some 0, false⟩] else [],
          [Ident.fn ⟨1, 1, some 0, false⟩, Ident.fn ⟨2, 1, some 0, false⟩]⟩
        ⟨0, 9⟩ none).events =
      [⟨⟨1, 1, some 0, false⟩, ⟨0, 9⟩, .inlineRun⟩] ∧
    (publish (fun h' _ => if h'.id = 1 then some 7 else none)
        ⟨fun T₀ t₀ => if T₀ = 0 ∧ t₀ = none
            then [⟨1, 1, some 0, false⟩, ⟨2, 1, some 0, false⟩] else [],
          [Ident.fn ⟨1, 1, some 0, false⟩, Ident.fn ⟨2, 1, some 0, false⟩]⟩
        ⟨0, 9⟩ none).exc = some 7 := by
  have h := C7_handler_exception_aborts_dispatch
    ⟨fun T₀ t₀ => if T₀ = 0 ∧ t₀ = none
        then [⟨1, 1, some 0, false⟩, ⟨2, 1, some 0, false⟩] else [],
      [Ident.fn ⟨1, 1, some 0, false⟩, Ident.fn ⟨2, 1, some 0, false⟩]⟩
    ⟨0, 9⟩ none (fun h' _ => if h'.id = 1 then some 7 else none)
    [] [⟨2, 1, some 0, false⟩] ⟨1, 1, some 0, false⟩ 7
    (by decide) (fun h' hh' => absurd hh' (List.not_mem_nil h')) (by decide)
  simpa using h

/-- Claim C8: `publish` blocks its caller until every handler of the
snapshot has run to completion: when no handler raises, its trace calls
each snapshot handler (synchronous ones inline, asynchronous ones
awaited — never merely scheduled), returns no pending exception, and
drives each asynchronous handler on a private single-use event loop
created and discarded per handler invocation (`loopsCreated` =
`loopsClosed` = number of asynchronous handlers in the snapshot).
`batch_publish`, in contrast, only schedules asynchronous handlers
(`scheduledOnly`, i.e. `asyncio.create_task` without awaiting), so it
returns without guaranteeing their completion. -/
theorem C8_publish_awaits_batch_schedules (s : MessagerState) (m : Message)
    (t : Token) (msgs : List Message)
    (raises : Handler → Message → Option Nat)
    (hraises : ∀ h', raises h' m = none) :
    (publish raises s m t).events =
      (snapshot s m.type t).map
        (fun h => ⟨h, m, if h.isAsync then .awaited else .inlineRun⟩) ∧
    (publish raises s m t).exc = none ∧
    (publish raises s m t).loopsCreated =
      ((snapshot s m.type t).filter (·.isAsync)).length ∧
    (publish raises s m t).loopsClosed = (publish raises s m t).loopsCreated ∧
    (∀ e ∈ batch_publish s msgs t,
      e.delivery = if e.handler.isAsync then Delivery.scheduledOnly
                   else Delivery.inlineRun) := by
  rw [publish, runPublishLoop_no_exc (fun h' _ => hraises h')]
  exact ⟨rfl, rfl, rfl, rfl, fun e he => batch_event_shape he⟩

/-- Witness for C8: one async and one sync handler; publish awaits the
async one (one loop created and closed), batch only schedules it. -/
theorem C8_witness :
    (publish (fun _ _ => none)
        ⟨fun T₀ t₀ => if T₀ = 0 ∧ t₀ = none
            then [⟨1, 1, some 0, true⟩, ⟨2, 1, some 0, false⟩] else [],
          [Ident.fn ⟨1, 1, some 0, true⟩, Ident.fn ⟨2, 1, some 0, false⟩]⟩
        ⟨0, 5⟩ none).events =
      [⟨⟨1, 1, some 0, true⟩, ⟨0, 5⟩, .awaited⟩,
       ⟨⟨2, 1, some 0, false⟩, ⟨0, 5⟩, .inlineRun⟩] ∧
    (publish (fun _ _ => none)
        ⟨fun T₀ t₀ => if T₀ = 0 ∧ t₀ = none
            then [⟨1, 1, some 0, true⟩, ⟨2, 1, some 0, false⟩] else [],
          [Ident.fn ⟨1, 1, some 0, true⟩, Ident.fn ⟨2, 1, some 0, false⟩]⟩
        ⟨0, 5⟩ none).exc = none ∧
    (∀ e ∈ batch_publish
        ⟨fun T₀ t₀ => if T₀ = 0 ∧ t₀ = none
            then [⟨1, 1, some 0, true⟩, ⟨2, 1, some 0, false⟩] else [],
          [Ident.fn ⟨1, 1, some 0, true⟩, Ident.fn ⟨2, 1, some 0, false⟩]⟩
        [⟨0, 5⟩] none,
      e.delivery = if e.handler.isAsync then Delivery.scheduledOnly
                   else Delivery.inlineRun) := by
  have h := C8_publish_awaits_batch_schedules
    ⟨fun T₀ t₀ => if T₀ = 0 ∧ t₀ = none
        then [⟨1, 1, some 0, true⟩, ⟨2, 1, some 0, false⟩] else [],
      [Ident.fn ⟨1, 1, some 0, true⟩, Ident.fn ⟨2, 1, some 0, false⟩]⟩
    ⟨0, 5⟩ none [⟨0, 5⟩] (fun _ _ => none) (fun _ => rfl)
  exact ⟨by simpa using h.1, h.2.1, h.2.2.2.2⟩

/-- Claim C9: `Messager()` is a singleton: once the class holds an
initialized instance `(i, s)`, constructing again returns the very same
instance id `i` and leaves the class state — in particular every
subscription recorded in `s` — completely untouched (`__init__` does not
re-initialize); and for any class state whatsoever, two consecutive
constructions return the same instance. -/
theorem C9_singleton_construction (w : ClassWorld) (i : Nat)
    (s : MessagerState) (hw : w.inst = some (i, some s)) :
    messagerCtor w = (i, w) ∧
    ∀ v : ClassWorld, (messagerCtor (messagerCtor v).2).1 = (messagerCtor v).1 := by
  constructor
  · simp only [messagerCtor, messagerNew, messagerInit, hw]
  · intro v
    cases hv : v.inst with
    | none => simp [messagerCtor, messagerNew, messagerInit, hv]
    | some p =>
        obtain ⟨j, st⟩ := p
        cases st <;> simp [messagerCtor, messagerNew, messagerInit, hv]

/-- Witness for C9: a class state already holding instance 5 whose store
contains one subscription; reconstruction returns instance 5 and keeps
the store intact. -/
theorem C9_witness :
    messagerCtor
        ⟨some (5, some ⟨fun T₀ t₀ => if T₀ = 0 ∧ t₀ = none
            then [⟨0, 1, some 0, false⟩] else [],
          [Ident.fn ⟨0, 1, some 0, false⟩]⟩), 6⟩ =
      (5, ⟨some (5, some ⟨fun T₀ t₀ => if T₀ = 0 ∧ t₀ = none
            then [⟨0, 1, some 0, false⟩] else [],
          [Ident.fn ⟨0, 1, some 0, false⟩]⟩), 6⟩) :=
  (C9_singleton_construction _ 5
    ⟨fun T₀ t₀ => if T₀ = 0 ∧ t₀ = none then [⟨0, 1, some 0, false⟩] else [],
      [Ident.fn ⟨0, 1, some 0, false⟩]⟩ rfl).1

/-- Claim C10: `subscribe` and `subscribeReceiver` are atomic with respect
to failure: whenever either raises (duplicate identity, arity ≠ 1, or
missing parameter annotation), the registry state — routing table and
global identity set — is exactly what it was before the call.  In the
code every raise happens before any mutation. -/
theorem C10_subscribe_atomic_on_failure (s : MessagerState) (h : Handler)
    (r : Receiver) (t : Token) (e e' : SubscriptionError)
    (h1 : (subscribe s h t).2 = some e)
    (h2 : (subscribeReceiver s r).2 = some e') :
    (subscribe s h t).1 = s ∧ (subscribeReceiver s r).1 = s := by
  constructor
  · by_cases hm : Ident.fn h ∈ s.subscriberSet
    · simp [subscribe, hm]
    · cases hgp : getParameterType h with
      | error err => simp [subscribe, hm, hgp]
      | ok T => simp [subscribe, hm, hgp] at h1
  · by_cases hm : Ident.recv r ∈ s.subscriberSet
    · simp [subscribeReceiver, hm]
    · cases hgp : getParameterType r.receive with
      | error err => simp [subscribeReceiver, hm, hgp]
      | ok T => simp [subscribeReceiver, hm, hgp] at h2

/-- Witness for C10: a zero-arity handler and a receiver with an
unannotated `receive` both fail to subscribe on the empty registry, and
the state is unchanged. -/
theorem C10_witness :
    (subscribe emptyState ⟨0, 0, none, false⟩ none).1 = emptyState ∧
    (subscribeReceiver emptyState ⟨1, none, ⟨2, 1, none, false⟩⟩).1 =
      emptyState :=
  C10_subscribe_atomic_on_failure emptyState ⟨0, 0, none, false⟩
    ⟨1, none, ⟨2, 1, none, false⟩⟩ none .badArity .missingAnnot
    (by decide) (by decide)
